import Mathlib

/-!
Shallow embedding of manix's `src/options_docsource.rs` (the options
documentation source backend) together with the pieces of the crate's
interface it uses (case-insensitive ASCII matching primitives, the
`DocEntry` wrapper and the `Errors` type), which live outside the
provided sources and are therefore modelled from the specification.

Conventions of the embedding:
- Rust byte strings (`&[u8]`, `String`, `PathBuf`) are `List Nat`
  (each element a byte value < 256 in well-formed data).
- The Rust `HashMap<String, OptionDocumentation>` is a list of
  key/record pairs whose list order stands for the map's iteration
  order; `HashMap` key uniqueness is the `Nodup` hypothesis where a
  claim needs it.  Iteration order of two distinct `HashMap`s agreeing
  on their key sets is not guaranteed to agree (Rust's hasher is
  randomly seeded per map), which the embedding reflects by letting the
  two lists order their keys differently.
- Fallible operations return `Option`/`Except`; a Rust panic
  (`unwrap`/`expect` on a failure) is `none` in an `Option`-valued
  result, distinguished from an `Err` returned to the caller.
- The external `nix-build` subprocess and the environment are passed in
  as explicit inputs (`Except IoError Output`, `Option Bytes`,
  `Bytes → Bool`), so the pure logic of the source can be analysed.
-/

abbrev Bytes := List Nat

/-- Modelled from the spec: manix's `Lowercase`-folding of a single byte
(`src/lib.rs`, not among the provided sources).  ASCII letters `A`–`Z`
(65–90) are mapped to `a`–`z`; every other byte is left verbatim. -/
def to_lower_ascii (b : Nat) : Nat :=
  if 65 ≤ b ∧ b ≤ 90 then b + 32 else b

/-- Modelled from the spec: `starts_with_insensitive_ascii(haystack, needle)`
from `src/lib.rs` (not among the provided sources): true iff the
lowercase-folded haystack begins with the needle, the needle being
already lowercase-folded by the caller (`Lowercase`). -/
def starts_with_insensitive_ascii (hay needle : Bytes) : Bool :=
  needle.isPrefixOf (hay.map to_lower_ascii)

/-- Helper for the substring primitive: `bytes_occurs needle l` is true iff
`needle` occurs contiguously somewhere in `l`. -/
def bytes_occurs (needle : Bytes) : Bytes → Bool
  | [] => needle.isEmpty
  | b :: t => needle.isPrefixOf (b :: t) || bytes_occurs needle t

/-- Modelled from the spec: `contains_insensitive_ascii(haystack, needle)`
from `src/lib.rs` (not among the provided sources): true iff the
already-lowercased needle occurs anywhere in the lowercase-folded
haystack. -/
def contains_insensitive_ascii (hay needle : Bytes) : Bool :=
  bytes_occurs needle (hay.map to_lower_ascii)

/-- `OptionDocumentation` from `src/options_docsource.rs` (fields in source
order; serde attributes are handled by the JSON (de)serializers below). -/
structure OptionDocumentation where
  description : Bytes
  read_only : Bool
  location : List Bytes
  option_type : Bytes
deriving DecidableEq

/-- `OptionDocumentation::name`: the `location` segments joined with `"."`
(byte 46). -/
def OptionDocumentation.name (d : OptionDocumentation) : Bytes :=
  List.intercalate [46] d.location

/-- `OptionsDatabaseType` from `src/options_docsource.rs`. -/
inductive OptionsDatabaseType
  | NixOS
  | NixDarwin
  | HomeManager
deriving DecidableEq

/-- Modelled from the spec: the `DocEntry` tagged union from `src/lib.rs`
(not among the provided sources).  Only the variant produced by this
backend, `DocEntry::OptionDoc(OptionsDatabaseType, OptionDocumentation)`,
is relevant here; the other variants belong to other backends and are out
of scope. -/
inductive DocEntry
  | OptionDoc (typ : OptionsDatabaseType) (doc : OptionDocumentation)
deriving DecidableEq

/-- The name carried by a search result entry (the wrapped record's name). -/
def DocEntry.entry_name : DocEntry → Bytes
  | .OptionDoc _ d => d.name

/-- Modelled from the spec: the crate's `Errors` type (`src/lib.rs`, not
among the provided sources), restricted to the kinds this backend
produces: a fetch failure carrying captured diagnostic output, and a
parse failure (unreadable file or schema mismatch). -/
inductive Errors
  | fetch_error (diag : Bytes)
  | parse_error
deriving DecidableEq

/-- `OptionsDatabase` from `src/options_docsource.rs`: the backend variant
tag plus the `HashMap<String, OptionDocumentation>`, the latter embedded
as a list of pairs in iteration order. -/
structure OptionsDatabase where
  typ : OptionsDatabaseType
  options : List (Bytes × OptionDocumentation)
deriving DecidableEq

/-- `OptionsDatabase::new`: a database with the given variant and an empty
mapping. -/
def OptionsDatabase.new (typ : OptionsDatabaseType) : OptionsDatabase :=
  { typ := typ, options := [] }

/-- `DocSource::all_keys` for `OptionsDatabase`: every key of the mapping,
in iteration order. -/
def OptionsDatabase.all_keys (db : OptionsDatabase) : List Bytes :=
  db.options.map Prod.fst

/-- `DocSource::search` for `OptionsDatabase`: keep the entries whose key
starts (case-insensitively) with the pre-lowercased query, and wrap each
retained record in `DocEntry::OptionDoc` tagged with this database's
variant. -/
def OptionsDatabase.search (db : OptionsDatabase) (query : Bytes) : List DocEntry :=
  (db.options.filter (fun p => starts_with_insensitive_ascii p.1 query)).map
    (fun p => DocEntry.OptionDoc db.typ p.2)

/-- `DocSource::search_liberal` for `OptionsDatabase`: as `search` but with
substring matching. -/
def OptionsDatabase.search_liberal (db : OptionsDatabase) (query : Bytes) : List DocEntry :=
  (db.options.filter (fun p => contains_insensitive_ascii p.1 query)).map
    (fun p => DocEntry.OptionDoc db.typ p.2)

/-- `DocSource::update` for `OptionsDatabase`.  The external fetch and parse
(`try_from_file(&get_*_json_doc_path()?)?`) is passed in as `fetched`; on
error the `?` operator returns it before any mutation.  On success the new
mapping replaces the old one (`std::mem::replace`) and the result is
`old.keys().eq(self.options.keys())`: element-wise equality of the two key
iterators in their respective iteration orders. -/
def OptionsDatabase.update (db : OptionsDatabase)
    (fetched : Except Errors (List (Bytes × OptionDocumentation))) :
    Except Errors Bool × OptionsDatabase :=
  match fetched with
  | .error e => (.error e, db)
  | .ok opts =>
      (.ok (db.options.map Prod.fst == opts.map Prod.fst), { db with options := opts })

/-- A sample record used by concrete evaluations: `loc = ["a"]`, `type = "t"`. -/
def sample_doc : OptionDocumentation :=
  { description := [], read_only := false, location := [[97]], option_type := [116] }

/-! ## External fetch: path resolution (`get_*_json_doc_path`)

`std::process::Command::output()` is passed in as an
`Except IoError Output` (`.error` = the command failed to launch; a
non-zero exit status is an `.ok` with `success = false`).  A Rust panic
is the `none` of the `Option`-valued result. -/

/-- The captured result of `Command::output()`: exit-status success flag,
stdout bytes and stderr bytes. -/
structure Output where
  success : Bool
  stdout : Bytes
  stderr : Bytes
deriving DecidableEq

/-- A `std::io::Error`, reduced to its message bytes. -/
abbrev IoError := Bytes

/-- A UTF-8 continuation byte (`0x80`–`0xBF`). -/
def utf8_cont (b : Nat) : Bool :=
  128 ≤ b && b ≤ 191

/-- Admissible second byte of a multi-byte UTF-8 sequence with leading byte
`b` (the restricted ranges for `0xE0`, `0xED`, `0xF0`, `0xF4` rule out
overlong encodings and surrogates, as in Rust's validator). -/
def utf8_second_ok (b c : Nat) : Bool :=
  if b = 224 then 160 ≤ c && c ≤ 191
  else if b = 237 then 128 ≤ c && c ≤ 159
  else if b = 240 then 144 ≤ c && c ≤ 191
  else if b = 244 then 128 ≤ c && c ≤ 143
  else utf8_cont c

/-- UTF-8 validity of a byte sequence, as checked by Rust's
`String::from_utf8`. -/
def utf8_valid : Bytes → Bool
  | [] => true
  | b :: rest =>
    if b ≤ 127 then utf8_valid rest
    else if 194 ≤ b && b ≤ 223 then
      match rest with
      | c :: r => utf8_cont c && utf8_valid r
      | [] => false
    else if 224 ≤ b && b ≤ 239 then
      match rest with
      | c1 :: c2 :: r => utf8_second_ok b c1 && utf8_cont c2 && utf8_valid r
      | _ => false
    else if 240 ≤ b && b ≤ 244 then
      match rest with
      | c1 :: c2 :: c3 :: r =>
          utf8_second_ok b c1 && utf8_cont c2 && utf8_cont c3 && utf8_valid r
      | _ => false
    else false

/-- `String::from_utf8`: the same bytes on success, `none` on invalid
UTF-8 (where the Rust code below calls `.unwrap()`, `none` then means a
panic). -/
def string_from_utf8 (bs : Bytes) : Option Bytes :=
  if utf8_valid bs then some bs else none

/-- The UTF-8 encoding of U+FFFD REPLACEMENT CHARACTER. -/
def utf8_repl : Bytes := [239, 191, 189]

/-- `String::from_utf8_lossy`: valid scalar sequences are kept verbatim,
each maximal invalid subpart is replaced by U+FFFD (Rust's
substitution-of-maximal-subparts behaviour: an invalid or missing
continuation byte ends the current subpart, which spans the bytes
consumed so far). -/
def from_utf8_lossy : Bytes → Bytes
  | [] => []
  | b :: rest =>
    if b ≤ 127 then b :: from_utf8_lossy rest
    else if 194 ≤ b && b ≤ 223 then
      match rest with
      | [] => utf8_repl
      | c :: r =>
          if utf8_cont c then b :: c :: from_utf8_lossy r
          else utf8_repl ++ from_utf8_lossy (c :: r)
    else if 224 ≤ b && b ≤ 239 then
      match rest with
      | [] => utf8_repl
      | c1 :: r1 =>
          if utf8_second_ok b c1 then
            match r1 with
            | [] => utf8_repl
            | c2 :: r2 =>
                if utf8_cont c2 then b :: c1 :: c2 :: from_utf8_lossy r2
                else utf8_repl ++ from_utf8_lossy (c2 :: r2)
          else utf8_repl ++ from_utf8_lossy (c1 :: r1)
    else if 240 ≤ b && b ≤ 244 then
      match rest with
      | [] => utf8_repl
      | c1 :: r1 =>
          if utf8_second_ok b c1 then
            match r1 with
            | [] => utf8_repl
            | c2 :: r2 =>
                if utf8_cont c2 then
                  match r2 with
                  | [] => utf8_repl
                  | c3 :: r3 =>
                      if utf8_cont c3 then b :: c1 :: c2 :: c3 :: from_utf8_lossy r3
                      else utf8_repl ++ from_utf8_lossy (c3 :: r3)
                else utf8_repl ++ from_utf8_lossy (c2 :: r2)
          else utf8_repl ++ from_utf8_lossy (c1 :: r1)
    else utf8_repl ++ from_utf8_lossy rest
termination_by l => l.length
decreasing_by all_goals simp only [List.length_cons]; omega

/-- `str::trim_end_matches('\n')`: drop every trailing newline byte. -/
def trim_end_newlines (s : Bytes) : Bytes :=
  (s.reverse.dropWhile (fun b => b == 10)).reverse

/-- `Path::join` with a relative right-hand side: concatenation through a
`/` separator (byte 47). -/
def path_join (a b : Bytes) : Bytes :=
  a ++ [47] ++ b

/-- The bytes of `".nix-profile"`. -/
def nix_profile_seg : Bytes :=
  [46, 110, 105, 120, 45, 112, 114, 111, 102, 105, 108, 101]

/-- The bytes of `"share/doc/home-manager/options.json"`. -/
def hm_options_subpath : Bytes :=
  [115, 104, 97, 114, 101, 47, 100, 111, 99, 47, 104, 111, 109, 101, 45,
   109, 97, 110, 97, 103, 101, 114, 47, 111, 112, 116, 105, 111, 110, 115,
   46, 106, 115, 111, 110]

/-- `get_nixos_json_doc_path`: propagate a launch failure (`?`), otherwise
decode stdout with `String::from_utf8(..).unwrap()` (a panic — `none` —
on invalid UTF-8) and return it with trailing newlines trimmed.  The exit
status is never inspected. -/
def get_nixos_json_doc_path (build : Except IoError Output) :
    Option (Except IoError Bytes) :=
  match build with
  | .error e => some (.error e)
  | .ok o =>
      match string_from_utf8 o.stdout with
      | none => none
      | some s => some (.ok (trim_end_newlines s))

/-- `get_nd_json_doc_path`: identical to the NixOS resolution (the extra
`println!` of the trimmed path is a side effect with no bearing on the
result). -/
def get_nd_json_doc_path (build : Except IoError Output) :
    Option (Except IoError Bytes) :=
  match build with
  | .error e => some (.error e)
  | .ok o =>
      match string_from_utf8 o.stdout with
      | none => none
      | some s => some (.ok (trim_end_newlines s))

/-- `get_hm_json_doc_path`.  `home` is `std::env::var("HOME")`
(`none` = absent/unreadable) and `path_exists` is `Path::exists`.  On a
successful build, the base path is lossily-decoded trimmed stdout; on a
failed build the code reads `HOME` and panics (`expect`, hence `none`)
when it is absent, otherwise uses `$HOME/.nix-profile` if the options
file exists under it and else returns the build's captured stderr as an
error.  The fixed subpath is joined onto the chosen base at the end. -/
def get_hm_json_doc_path (build : Except IoError Output)
    (home : Option Bytes) (path_exists : Bytes → Bool) :
    Option (Except IoError Bytes) :=
  match build with
  | .error e => some (.error e)
  | .ok o =>
      if o.success then
        some (.ok (path_join (trim_end_newlines (from_utf8_lossy o.stdout))
          hm_options_subpath))
      else
        match home with
        | none => none
        | some h =>
            let base := path_join h nix_profile_seg
            if path_exists (path_join base hm_options_subpath) then
              some (.ok (path_join base hm_options_subpath))
            else
              some (.error (from_utf8_lossy o.stderr))

/-! ## JSON model and serde (de)serialization of `OptionDocumentation`

`serde_json` values; object fields are kept in document order.  The
derived serde impls for `OptionDocumentation` are embedded as explicit
(de)serializers honouring the field attributes:
`#[serde(default)] description`, `#[serde(default, rename = "readOnly")]
read_only`, `#[serde(rename = "loc")] location`,
`#[serde(rename = "type")] option_type`.  Deserialization failures carry
no payload here, so the result type is `Option` (`none` = serde error);
duplicate-field rejection is not modelled (field lookup takes the first
occurrence). -/

/-- A JSON value.  Numbers are irrelevant to this schema and carried as
`Int`. -/
inductive Json
  | null
  | bool (b : Bool)
  | num (n : Int)
  | str (s : Bytes)
  | arr (elems : List Json)
  | obj (fields : List (Bytes × Json))

/-- The bytes of `"description"`. -/
def description_key : Bytes :=
  [100, 101, 115, 99, 114, 105, 112, 116, 105, 111, 110]

/-- The bytes of `"readOnly"`. -/
def read_only_key : Bytes :=
  [114, 101, 97, 100, 79, 110, 108, 121]

/-- The bytes of `"loc"`. -/
def loc_key : Bytes :=
  [108, 111, 99]

/-- The bytes of `"type"`. -/
def type_key : Bytes :=
  [116, 121, 112, 101]

/-- Deserialize a JSON string. -/
def decode_string : Json → Option Bytes
  | .str s => some s
  | _ => none

/-- Deserialize a JSON boolean. -/
def decode_bool : Json → Option Bool
  | .bool b => some b
  | _ => none

/-- Deserialize a JSON array of strings element-wise; any non-string
element fails the whole array. -/
def decode_string_list : List Json → Option (List Bytes)
  | [] => some []
  | .str s :: rest => (decode_string_list rest).map (fun l => s :: l)
  | _ => none

/-- The `#[serde(default)] description` field: absent means the empty
string, present must be a string. -/
def decode_description_field (f : Option Json) : Option Bytes :=
  match f with
  | none => some []
  | some j => decode_string j

/-- The `#[serde(default, rename = "readOnly")] read_only` field: absent
means `false`, present must be a boolean. -/
def decode_read_only_field (f : Option Json) : Option Bool :=
  match f with
  | none => some false
  | some j => decode_bool j

/-- The required `#[serde(rename = "loc")] location` field: must be present
and an array of strings. -/
def decode_loc_field (f : Option Json) : Option (List Bytes)  :=
  match f with
  | none => none
  | some (.arr xs) => decode_string_list xs
  | some _ => none

/-- The required `#[serde(rename = "type")] option_type` field: must be
present and a string. -/
def decode_type_field (f : Option Json) : Option Bytes :=
  match f with
  | none => none
  | some j => decode_string j

/-- The derived `Deserialize` for `OptionDocumentation`: the value must be
an object; each field is read under its (renamed) key with the defaults
above; any field failure fails the record. -/
def deserialize_option_documentation (j : Json) : Option OptionDocumentation :=
  match j with
  | .obj fields =>
      match decode_description_field (List.lookup description_key fields) with
      | none => none
      | some descr =>
          match decode_read_only_field (List.lookup read_only_key fields) with
          | none => none
          | some ro =>
              match decode_loc_field (List.lookup loc_key fields) with
              | none => none
              | some loc =>
                  match decode_type_field (List.lookup type_key fields) with
                  | none => none
                  | some ty =>
                      some { description := descr, read_only := ro,
                             location := loc, option_type := ty }
  | _ => none

/-- Deserializing the entries of the top-level object in document order;
the first failing record fails the whole document. -/
def deserialize_entries : List (Bytes × Json) → Option (List (Bytes × OptionDocumentation))
  | [] => some []
  | (k, v) :: rest =>
      match deserialize_option_documentation v with
      | none => none
      | some d =>
          match deserialize_entries rest with
          | none => none
          | some ds => some ((k, d) :: ds)

/-- `serde_json::from_slice::<HashMap<String, OptionDocumentation>>`: the
document must be a JSON object and every record must deserialize
(all-or-nothing). -/
def deserialize_options (j : Json) : Option (List (Bytes × OptionDocumentation)) :=
  match j with
  | .obj fields => deserialize_entries fields
  | _ => none

/-- `try_from_file`: `std::fs::read` and the serde parse, both failures
surfacing as errors (per the spec's `ParseError`: unreadable file or
schema mismatch).  The file contents are passed in as
`Except Unit Json` (`.error` = I/O failure reading the file). -/
def try_from_file (contents : Except Unit Json) :
    Except Errors (List (Bytes × OptionDocumentation)) :=
  match contents with
  | .error _ => .error .parse_error
  | .ok j =>
      match deserialize_options j with
      | none => .error .parse_error
      | some l => .ok l

/-- The derived `Serialize` for `OptionDocumentation`: an object with the
four fields under their (renamed) keys, in declaration order; defaulted
fields are serialized too. -/
def serialize_option_documentation (d : OptionDocumentation) : Json :=
  .obj [(description_key, .str d.description),
        (read_only_key, .bool d.read_only),
        (loc_key, .arr (d.location.map .str)),
        (type_key, .str d.option_type)]

/-! ## Helper lemmas -/

/-- A list is a (byte-equality) prefix of itself. -/
theorem bytes_isPrefixOf_self (l : Bytes) : l.isPrefixOf l = true := by
  induction l with
  | nil => rfl
  | cons b t ih => simp [List.isPrefixOf, ih]

/-- A prefix of a byte sequence occurs in it. -/
theorem isPrefixOf_imp_occurs (n l : Bytes) (h : n.isPrefixOf l = true) :
    bytes_occurs n l = true := by
  cases l with
  | nil =>
      cases n with
      | nil => rfl
      | cons a t => simp [List.isPrefixOf] at h
  | cons b t => simp [bytes_occurs, h]

/-- Prefix matching implies substring matching (same haystack, same
pre-lowercased needle). -/
theorem starts_imp_contains (hay n : Bytes)
    (h : starts_with_insensitive_ascii hay n = true) :
    contains_insensitive_ascii hay n = true :=
  isPrefixOf_imp_occurs n (hay.map to_lower_ascii) h

/-- Sample database fixtures for concrete evaluations. -/
def dbA : OptionsDatabase :=
  { typ := .NixOS, options := [([97], sample_doc)] }

def optsA : List (Bytes × OptionDocumentation) :=
  [([97], sample_doc)]

/-! ## Claims -/

/-- Claim C8 (confirmed): a freshly constructed `OptionsDatabase` for any
backend variant has an empty mapping, so `all_keys()` is empty and
`search`/`search_liberal` return empty results for every query. -/
theorem claim_C8_new_database_empty (t : OptionsDatabaseType) (q : Bytes) :
    (OptionsDatabase.new t).options = [] ∧
    (OptionsDatabase.new t).all_keys = [] ∧
    (OptionsDatabase.new t).search q = [] ∧
    (OptionsDatabase.new t).search_liberal q = [] :=
  ⟨rfl, rfl, rfl, rfl⟩

/-- Claim C2 (confirmed): when `update()` fails with a fetch or parse
error, the database is left exactly as it was: the state is unchanged and
`all_keys`/`search`/`search_liberal` observe the identical mapping. -/
theorem claim_C2_failed_update_preserves_state (db : OptionsDatabase) (e : Errors) :
    db.update (.error e) = (.error e, db) ∧
    (db.update (.error e)).2.all_keys = db.all_keys ∧
    (∀ q, (db.update (.error e)).2.search q = db.search q) ∧
    (∀ q, (db.update (.error e)).2.search_liberal q = db.search_liberal q) :=
  ⟨rfl, rfl, fun _ => rfl, fun _ => rfl⟩

/-- Claim C1 (counterexample): a successful `update()` whose new mapping
has exactly the same key set as the old one — merely iterated in a
different order, as two independently seeded Rust `HashMap`s may do —
returns `false`, refuting "returns true if and only if the key set is
unchanged". -/
theorem claim_C1_counterexample :
    (OptionsDatabase.update ⟨.NixOS, [([97], sample_doc), ([98], sample_doc)]⟩
      (.ok [([98], sample_doc), ([97], sample_doc)])).1 = .ok false ∧
    (OptionsDatabase.all_keys ⟨.NixOS, [([97], sample_doc), ([98], sample_doc)]⟩).Perm
      ((OptionsDatabase.update ⟨.NixOS, [([97], sample_doc), ([98], sample_doc)]⟩
        (.ok [([98], sample_doc), ([97], sample_doc)])).2.all_keys) := by
  constructor
  · rfl
  · decide

/-- Claim C1 (amended, theorem): a successful `update()` returns true iff
the old and new key sequences — the keys in each mapping's iteration
order — are equal; when it returns true the key set is indeed unchanged.
(An unchanged key set iterated in a different order yields `false`, per
the counterexample.) -/
theorem claim_C1_update_key_sequence (db : OptionsDatabase)
    (opts : List (Bytes × OptionDocumentation)) :
    ((db.update (.ok opts)).1 = .ok true ↔ db.all_keys = opts.map Prod.fst) ∧
    ((db.update (.ok opts)).1 = .ok true →
      ∀ k, k ∈ db.all_keys ↔ k ∈ (db.update (.ok opts)).2.all_keys) := by
  have h1 : (db.update (.ok opts)).1 = .ok true ↔ db.all_keys = opts.map Prod.fst := by
    simp [OptionsDatabase.update, OptionsDatabase.all_keys]
  refine ⟨h1, fun h k => ?_⟩
  have h2 : db.all_keys = opts.map Prod.fst := h1.mp h
  have h3 : (db.update (.ok opts)).2.all_keys = opts.map Prod.fst := rfl
  rw [h2, h3]

/-- Claim C1 (witness): the amended statement instantiated at a concrete
database and fetch result. -/
theorem claim_C1_update_key_sequence_witness :
    ((dbA.update (.ok optsA)).1 = .ok true ↔ dbA.all_keys = optsA.map Prod.fst) ∧
    ((dbA.update (.ok optsA)).1 = .ok true →
      ∀ k, k ∈ dbA.all_keys ↔ k ∈ (dbA.update (.ok optsA)).2.all_keys) :=
  claim_C1_update_key_sequence dbA optsA

/-- Claim C4 (confirmed): every entry returned by prefix search is also
returned by substring search on the same database state and query. -/
theorem claim_C4_liberal_superset (db : OptionsDatabase) (q : Bytes)
    (e : DocEntry) (h : e ∈ db.search q) : e ∈ db.search_liberal q := by
  unfold OptionsDatabase.search at h
  unfold OptionsDatabase.search_liberal
  rcases List.mem_map.mp h with ⟨p, hp, rfl⟩
  rcases List.mem_filter.mp hp with ⟨hmem, hpred⟩
  exact List.mem_map.mpr ⟨p, List.mem_filter.mpr ⟨hmem, starts_imp_contains _ _ hpred⟩, rfl⟩

/-- Claim C4 (witness): a concrete entry found by `search` is found by
`search_liberal` as well. -/
theorem claim_C4_liberal_superset_witness :
    DocEntry.OptionDoc .NixOS sample_doc ∈ dbA.search [97] ∧
    DocEntry.OptionDoc .NixOS sample_doc ∈ dbA.search_liberal [97] :=
  ⟨by decide, claim_C4_liberal_superset dbA [97] _ (by decide)⟩

/-- Claim C3 (confirmed): `search` returns exactly one entry per key of the
mapping that starts (ASCII-case-insensitively) with the query — the
result's length is the number of matching keys and its members are
exactly the matching keys' records wrapped with this database's variant —
and it is empty when the mapping is empty or nothing matches. -/
theorem claim_C3_search_characterization (db : OptionsDatabase) (q : Bytes) :
    (db.search q).length =
      db.options.countP (fun p => starts_with_insensitive_ascii p.1 q) ∧
    (∀ e, e ∈ db.search q ↔ ∃ p, p ∈ db.options ∧
      starts_with_insensitive_ascii p.1 q = true ∧
      e = DocEntry.OptionDoc db.typ p.2) ∧
    (db.options = [] → db.search q = []) ∧
    ((∀ p ∈ db.options, starts_with_insensitive_ascii p.1 q = false) →
      db.search q = []) := by
  refine ⟨?_, fun e => ⟨fun he => ?_, fun he => ?_⟩, fun h => ?_, fun h => ?_⟩
  · rw [OptionsDatabase.search, List.length_map,
      List.countP_eq_length_filter]
  · rcases List.mem_map.mp he with ⟨p, hp, rfl⟩
    rcases List.mem_filter.mp hp with ⟨h1, h2⟩
    exact ⟨p, h1, h2, rfl⟩
  · rcases he with ⟨p, h1, h2, rfl⟩
    exact List.mem_map.mpr ⟨p, List.mem_filter.mpr ⟨h1, h2⟩, rfl⟩
  · simp [OptionsDatabase.search, h]
  · have hf : db.options.filter (fun p => starts_with_insensitive_ascii p.1 q) = [] :=
      List.filter_eq_nil_iff.mpr (fun p hp => by simp [h p hp])
    simp [OptionsDatabase.search, hf]

/-- Claim C3 (witness): the characterization instantiated at a concrete
database and query. -/
theorem claim_C3_search_characterization_witness :
    (dbA.search [98]).length =
      dbA.options.countP (fun p => starts_with_insensitive_ascii p.1 [98]) ∧
    (∀ e, e ∈ dbA.search [98] ↔ ∃ p, p ∈ dbA.options ∧
      starts_with_insensitive_ascii p.1 [98] = true ∧
      e = DocEntry.OptionDoc dbA.typ p.2) ∧
    (dbA.options = [] → dbA.search [98] = []) ∧
    ((∀ p ∈ dbA.options, starts_with_insensitive_ascii p.1 [98] = false) →
      dbA.search [98] = []) :=
  claim_C3_search_characterization dbA [98]

/-- A record whose joined location (`"bar"`) differs from the key it is
stored under (`"foo"`). -/
def mismatched_doc : OptionDocumentation :=
  { description := [], read_only := false, location := [[98, 97, 114]],
    option_type := [116] }

/-- Claim C5 (counterexample): `update()` succeeds on a parsed document
that stores under key `"foo"` a record whose joined location is `"bar"`
(nothing in the code validates keys against locations), after which
`all_keys()` contains a key that differs from its record's joined
location and the exact-key search returns no entry named `"foo"`. -/
theorem claim_C5_counterexample :
    (((OptionsDatabase.new .NixOS).update
        (.ok [([102, 111, 111], mismatched_doc)])).1 = .ok false) ∧
    ((OptionsDatabase.new .NixOS).update
        (.ok [([102, 111, 111], mismatched_doc)])).2.all_keys = [[102, 111, 111]] ∧
    mismatched_doc.name ≠ [102, 111, 111] ∧
    (((OptionsDatabase.new .NixOS).update
        (.ok [([102, 111, 111], mismatched_doc)])).2.search
          [102, 111, 111]).countP
        (fun e => e.entry_name == [102, 111, 111]) = 0 := by
  refine ⟨rfl, rfl, by decide, by decide⟩

/-- In a pair list with `Nodup` keys, exactly one pair carries a given
present key. -/
theorem countP_key_eq_one (opts : List (Bytes × OptionDocumentation)) (k : Bytes)
    (hnd : (opts.map Prod.fst).Nodup) (hk : k ∈ opts.map Prod.fst) :
    opts.countP (fun p => p.1 == k) = 1 := by
  induction opts with
  | nil => simp at hk
  | cons p t ih =>
    simp only [List.map_cons, List.nodup_cons] at hnd
    rcases hnd with ⟨hp, ht⟩
    rw [List.countP_cons]
    by_cases hek : p.1 = k
    · subst hek
      have h0 : t.countP (fun q => q.1 == p.1) = 0 := by
        rw [List.countP_eq_zero]
        intro q hq
        simp only [beq_iff_eq]
        intro he
        exact hp (he ▸ List.mem_map_of_mem Prod.fst hq)
      simp [h0]
    · have hk' : k ∈ t.map Prod.fst := by
        rcases List.mem_cons.mp hk with h | h
        · exact absurd h.symm hek
        · exact h
      simp only [beq_iff_eq, hek, if_false]
      simpa using ih ht hk'

/-- Claim C5 (amended, theorem): after a successful `update()` whose
parsed document has unique keys each equal to the joined location of its
record — the well-formedness the spec calls its invariant, which the code
itself does not enforce — every key of `all_keys()` is the joined
location of its record, and searching with the (lowercased) full exact
key yields exactly one entry whose name equals that key. -/
theorem claim_C5_keys_are_names (db : OptionsDatabase)
    (opts : List (Bytes × OptionDocumentation))
    (hnd : (opts.map Prod.fst).Nodup)
    (hname : ∀ p ∈ opts, p.1 = p.2.name) :
    (∀ k ∈ (db.update (.ok opts)).2.all_keys,
      ∃ p ∈ (db.update (.ok opts)).2.options, p.1 = k ∧ p.2.name = k) ∧
    (∀ k ∈ (db.update (.ok opts)).2.all_keys,
      (((db.update (.ok opts)).2.search (k.map to_lower_ascii)).countP
        (fun e => e.entry_name == k)) = 1) := by
  have hopts : (db.update (.ok opts)).2.options = opts := rfl
  have hkeys : (db.update (.ok opts)).2.all_keys = opts.map Prod.fst := rfl
  constructor
  · intro k hkmem
    rw [hkeys] at hkmem
    rcases List.mem_map.mp hkmem with ⟨p, hp, rfl⟩
    exact ⟨p, hopts ▸ hp, rfl, (hname p hp).symm⟩
  · intro k hkmem
    rw [hkeys] at hkmem
    rw [OptionsDatabase.search, hopts, List.countP_map, List.countP_filter]
    have hcongr : opts.countP
        (fun p => ((fun e => e.entry_name == k) ∘
            (fun p => DocEntry.OptionDoc (db.update (.ok opts)).2.typ p.2)) p &&
          starts_with_insensitive_ascii p.1 (k.map to_lower_ascii)) =
        opts.countP (fun p => p.1 == k) := by
      apply List.countP_congr
      intro p hp
      simp only [Function.comp]
      have hpn : p.2.name = p.1 := (hname p hp).symm
      have hbe : (DocEntry.entry_name
            (DocEntry.OptionDoc (db.update (.ok opts)).2.typ p.2) == k &&
          starts_with_insensitive_ascii p.1 (k.map to_lower_ascii)) = (p.1 == k) := by
        rw [DocEntry.entry_name, hpn]
        by_cases hek : p.1 = k
        · subst hek
          rw [starts_with_insensitive_ascii, bytes_isPrefixOf_self, Bool.and_true]
        · have hfalse : (p.1 == k) = false := by simp [hek]
          rw [hfalse, Bool.false_and]
      rw [hbe]
    rw [hcongr]
    exact countP_key_eq_one opts k hnd hkmem

/-- Claim C5 (witness): the amended statement at a concrete well-formed
document (key `"a"`, record located at `["a"]`), hypotheses discharged by
evaluation. -/
theorem claim_C5_keys_are_names_witness :
    ((optsA.map Prod.fst).Nodup ∧ (∀ p ∈ optsA, p.1 = p.2.name)) ∧
    ((∀ k ∈ ((OptionsDatabase.new .NixOS).update (.ok optsA)).2.all_keys,
      ∃ p ∈ ((OptionsDatabase.new .NixOS).update (.ok optsA)).2.options,
        p.1 = k ∧ p.2.name = k) ∧
    (∀ k ∈ ((OptionsDatabase.new .NixOS).update (.ok optsA)).2.all_keys,
      ((((OptionsDatabase.new .NixOS).update (.ok optsA)).2.search
          (k.map to_lower_ascii)).countP
        (fun e => e.entry_name == k)) = 1)) :=
  ⟨⟨by decide, by decide⟩,
    claim_C5_keys_are_names (OptionsDatabase.new .NixOS) optsA
      (by decide) (by decide)⟩

/-- Claim C6 (counterexample): a build invocation that launched but exited
non-zero (UTF-8 stdout `"xyz\n"`) yields a path (`"xyz"`), not a fetch
failure, for both the NixOS and NixDarwin resolvers: the exit status is
never inspected. -/
theorem claim_C6_counterexample :
    get_nixos_json_doc_path
        (.ok { success := false, stdout := [120, 121, 122, 10], stderr := [98] }) =
      some (.ok [120, 121, 122]) ∧
    get_nd_json_doc_path
        (.ok { success := false, stdout := [120, 121, 122, 10], stderr := [98] }) =
      some (.ok [120, 121, 122]) :=
  ⟨rfl, rfl⟩

/-- Claim C6 (amended, theorem): the NixOS and NixDarwin resolvers return
stdout (UTF-8-decoded, trailing newlines trimmed) as the path whenever
the invocation launched and its stdout is valid UTF-8 — regardless of
exit status; they report a fetch failure exactly when the invocation
failed to launch; and on invalid UTF-8 stdout they panic (`unwrap`) and
return nothing at all. -/
theorem claim_C6_path_resolution (o : Output) (e : IoError) :
    (get_nixos_json_doc_path (.error e) = some (.error e) ∧
     get_nd_json_doc_path (.error e) = some (.error e)) ∧
    (utf8_valid o.stdout = false →
      get_nixos_json_doc_path (.ok o) = none ∧
      get_nd_json_doc_path (.ok o) = none) ∧
    (utf8_valid o.stdout = true →
      get_nixos_json_doc_path (.ok o) = some (.ok (trim_end_newlines o.stdout)) ∧
      get_nd_json_doc_path (.ok o) = some (.ok (trim_end_newlines o.stdout))) := by
  refine ⟨⟨rfl, rfl⟩, fun h => ?_, fun h => ?_⟩
  · exact ⟨by simp [get_nixos_json_doc_path, string_from_utf8, h],
      by simp [get_nd_json_doc_path, string_from_utf8, h]⟩
  · exact ⟨by simp [get_nixos_json_doc_path, string_from_utf8, h],
      by simp [get_nd_json_doc_path, string_from_utf8, h]⟩

/-- A sample captured build result: non-zero exit, stdout `"x\n"`. -/
def outB : Output :=
  { success := false, stdout := [120, 10], stderr := [5] }

/-- Claim C6 (witness): the amended statement at a concrete build
outcome. -/
theorem claim_C6_path_resolution_witness :
    (get_nixos_json_doc_path (.error [9]) = some (.error [9]) ∧
     get_nd_json_doc_path (.error [9]) = some (.error [9])) ∧
    (utf8_valid outB.stdout = false →
      get_nixos_json_doc_path (.ok outB) = none ∧
      get_nd_json_doc_path (.ok outB) = none) ∧
    (utf8_valid outB.stdout = true →
      get_nixos_json_doc_path (.ok outB) = some (.ok (trim_end_newlines outB.stdout)) ∧
      get_nd_json_doc_path (.ok outB) = some (.ok (trim_end_newlines outB.stdout))) :=
  claim_C6_path_resolution outB [9]

/-- Claim C7 (counterexample): when the build fails and `HOME` is absent,
the HomeManager resolver panics (`expect("HOME must be set")`) — it
returns nothing at all to the caller of `update()`, rather than
surfacing the condition as an error value. -/
theorem claim_C7_counterexample :
    get_hm_json_doc_path (.ok { success := false, stdout := [], stderr := [101] })
      none (fun _ => true) = none :=
  rfl

/-- Claim C7 (amended, theorem): on a failed build the HomeManager
resolver uses the `$HOME/.nix-profile` fallback only when the specific
`options.json` file exists there, otherwise propagates the original
build failure with its captured (lossily decoded) stderr; a launch
failure is propagated as-is; but when `HOME` is absent in the fallback
situation the code panics — the condition is fatal, not returned to the
caller as an error. -/
theorem claim_C7_hm_fallback (o : Output) (home : Option Bytes)
    (path_exists : Bytes → Bool) (h : o.success = false) :
    (home = none → get_hm_json_doc_path (.ok o) home path_exists = none) ∧
    (∀ hm, home = some hm →
      (path_exists (path_join (path_join hm nix_profile_seg) hm_options_subpath) = true →
        get_hm_json_doc_path (.ok o) home path_exists =
          some (.ok (path_join (path_join hm nix_profile_seg) hm_options_subpath))) ∧
      (path_exists (path_join (path_join hm nix_profile_seg) hm_options_subpath) = false →
        get_hm_json_doc_path (.ok o) home path_exists =
          some (.error (from_utf8_lossy o.stderr)))) ∧
    (∀ e, get_hm_json_doc_path (.error e) home path_exists = some (.error e)) := by
  refine ⟨fun hh => ?_, fun hm hh => ⟨fun hex => ?_, fun hex => ?_⟩, fun e => rfl⟩
  · subst hh
    simp [get_hm_json_doc_path, h]
  · subst hh
    simp [get_hm_json_doc_path, h, hex]
  · subst hh
    simp [get_hm_json_doc_path, h, hex]

/-- A sample captured build result for the HomeManager resolver: failed
build with stderr `"e"`. -/
def outC : Output :=
  { success := false, stdout := [], stderr := [101] }

/-- Claim C7 (witness): the amended statement at a concrete failed build,
with `HOME` present and the fallback file absent. -/
theorem claim_C7_hm_fallback_witness :
    outC.success = false ∧
    ((some [104] = none →
        get_hm_json_doc_path (.ok outC) (some [104]) (fun _ => false) = none) ∧
    (∀ hm, some [104] = some hm →
      ((fun _ => false : Bytes → Bool)
          (path_join (path_join hm nix_profile_seg) hm_options_subpath) = true →
        get_hm_json_doc_path (.ok outC) (some [104]) (fun _ => false) =
          some (.ok (path_join (path_join hm nix_profile_seg) hm_options_subpath))) ∧
      ((fun _ => false : Bytes → Bool)
          (path_join (path_join hm nix_profile_seg) hm_options_subpath) = false →
        get_hm_json_doc_path (.ok outC) (some [104]) (fun _ => false) =
          some (.error (from_utf8_lossy outC.stderr)))) ∧
    (∀ e, get_hm_json_doc_path (.error e) (some [104]) (fun _ => false) =
      some (.error e))) :=
  ⟨rfl, claim_C7_hm_fallback outC (some [104]) (fun _ => false) rfl⟩

/-- Looking up `"description"` in a serialized record finds its first
field. -/
theorem serial_lookup_description (a b c d : Json) :
    List.lookup description_key [(description_key, a), (read_only_key, b),
      (loc_key, c), (type_key, d)] = some a :=
  rfl

/-- Looking up `"readOnly"` in a serialized record finds its second
field. -/
theorem serial_lookup_read_only (a b c d : Json) :
    List.lookup read_only_key [(description_key, a), (read_only_key, b),
      (loc_key, c), (type_key, d)] = some b :=
  rfl

/-- Looking up `"loc"` in a serialized record finds its third field. -/
theorem serial_lookup_loc (a b c d : Json) :
    List.lookup loc_key [(description_key, a), (read_only_key, b),
      (loc_key, c), (type_key, d)] = some c :=
  rfl

/-- Looking up `"type"` in a serialized record finds its fourth field. -/
theorem serial_lookup_type (a b c d : Json) :
    List.lookup type_key [(description_key, a), (read_only_key, b),
      (loc_key, c), (type_key, d)] = some d :=
  rfl

/-- Decoding an array of serialized strings restores the string list. -/
theorem decode_string_list_map_str (l : List Bytes) :
    decode_string_list (l.map Json.str) = some l := by
  induction l with
  | nil => rfl
  | cons s t ih => simp [decode_string_list, ih]

/-- Claim C9 (confirmed): the parse is strict and all-or-nothing — a
record missing `loc` or missing `type` fails to deserialize, and any
failing record fails the whole document — while a record absent the
optional `description` deserializes with the empty string and one absent
the optional `readOnly` deserializes with `false`. -/
theorem claim_C9_strict_parse (rfields : List (Bytes × Json))
    (dfields : List (Bytes × Json)) (k : Bytes) (v : Json) :
    (List.lookup loc_key rfields = none →
      deserialize_option_documentation (.obj rfields) = none) ∧
    (List.lookup type_key rfields = none →
      deserialize_option_documentation (.obj rfields) = none) ∧
    (∀ d, deserialize_option_documentation (.obj rfields) = some d →
      (List.lookup description_key rfields = none → d.description = []) ∧
      (List.lookup read_only_key rfields = none → d.read_only = false)) ∧
    ((k, v) ∈ dfields → deserialize_option_documentation v = none →
      deserialize_options (.obj dfields) = none) := by
  refine ⟨fun hloc => ?_, fun hty => ?_, fun d hd => ⟨fun hdk => ?_, fun hrk => ?_⟩,
    fun hmem hv => ?_⟩
  · cases h1 : decode_description_field (List.lookup description_key rfields) with
    | none => simp [deserialize_option_documentation, h1]
    | some a =>
        cases h2 : decode_read_only_field (List.lookup read_only_key rfields) with
        | none => simp [deserialize_option_documentation, h1, h2]
        | some b =>
            simp [deserialize_option_documentation, h1, h2, hloc, decode_loc_field]
  · cases h1 : decode_description_field (List.lookup description_key rfields) with
    | none => simp [deserialize_option_documentation, h1]
    | some a =>
        cases h2 : decode_read_only_field (List.lookup read_only_key rfields) with
        | none => simp [deserialize_option_documentation, h1, h2]
        | some b =>
            cases h3 : decode_loc_field (List.lookup loc_key rfields) with
            | none => simp [deserialize_option_documentation, h1, h2, h3]
            | some c =>
                simp [deserialize_option_documentation, h1, h2, h3, hty,
                  decode_type_field]
  · rw [deserialize_option_documentation] at hd
    rw [hdk] at hd
    rw [show decode_description_field none = some [] from rfl] at hd
    rcases h2 : decode_read_only_field (List.lookup read_only_key rfields) with _ | b <;>
      rw [h2] at hd
    · exact absurd hd (by simp)
    · rcases h3 : decode_loc_field (List.lookup loc_key rfields) with _ | c <;>
        rw [h3] at hd
      · exact absurd hd (by simp)
      · rcases h4 : decode_type_field (List.lookup type_key rfields) with _ | t <;>
          rw [h4] at hd
        · exact absurd hd (by simp)
        · rw [← Option.some.inj hd]
  · rw [deserialize_option_documentation] at hd
    rcases h1 : decode_description_field (List.lookup description_key rfields) with _ | a <;>
      rw [h1] at hd
    · exact absurd hd (by simp)
    · rw [hrk] at hd
      rw [show decode_read_only_field none = some false from rfl] at hd
      rcases h3 : decode_loc_field (List.lookup loc_key rfields) with _ | c <;>
        rw [h3] at hd
      · exact absurd hd (by simp)
      · rcases h4 : decode_type_field (List.lookup type_key rfields) with _ | t <;>
          rw [h4] at hd
        · exact absurd hd (by simp)
        · rw [← Option.some.inj hd]
  · induction dfields with
    | nil => simp at hmem
    | cons p t ih =>
        obtain ⟨pk, pv⟩ := p
        rcases List.mem_cons.mp hmem with h | h
        · have hpv : pv = v := congrArg Prod.snd h.symm
          simp [deserialize_options, deserialize_entries, hpv, hv]
        · have htail : deserialize_entries t = none := by
            simpa [deserialize_options] using ih h
          cases hd : deserialize_option_documentation pv with
          | none => simp [deserialize_options, deserialize_entries, hd]
          | some d0 => simp [deserialize_options, deserialize_entries, hd, htail]

/-- A record document carrying only a `"type"` field. -/
def rfieldsA : List (Bytes × Json) :=
  [(type_key, .str [116])]

/-- A top-level document mapping key `"k"` (byte 107) to a non-object. -/
def dfieldsA : List (Bytes × Json) :=
  [([107], .num 3)]

/-- Claim C9 (witness): the strictness statement at a concrete record
missing `loc`, `description` and `readOnly`, and a concrete document
with a failing record. -/
theorem claim_C9_strict_parse_witness :
    (List.lookup loc_key rfieldsA = none →
      deserialize_option_documentation (.obj rfieldsA) = none) ∧
    (List.lookup type_key rfieldsA = none →
      deserialize_option_documentation (.obj rfieldsA) = none) ∧
    (∀ d, deserialize_option_documentation (.obj rfieldsA) = some d →
      (List.lookup description_key rfieldsA = none → d.description = []) ∧
      (List.lookup read_only_key rfieldsA = none → d.read_only = false)) ∧
    (([107], Json.num 3) ∈ dfieldsA →
      deserialize_option_documentation (.num 3) = none →
      deserialize_options (.obj dfieldsA) = none) :=
  claim_C9_strict_parse rfieldsA dfieldsA [107] (.num 3)

/-- Claim C10 (confirmed): serializing an `OptionDocumentation` and
deserializing the result restores the original value — the field renames
(`readOnly`, `loc`, `type`) are applied identically in both directions,
so the record type round-trips through its JSON representation. -/
theorem claim_C10_serde_roundtrip (d : OptionDocumentation) :
    deserialize_option_documentation (serialize_option_documentation d) = some d := by
  cases d with
  | mk descr ro loc ty =>
      simp [serialize_option_documentation, deserialize_option_documentation,
        serial_lookup_description, serial_lookup_read_only, serial_lookup_loc,
        serial_lookup_type, decode_description_field, decode_read_only_field,
        decode_loc_field, decode_type_field, decode_string, decode_bool,
        decode_string_list_map_str]
